import Mathlib

/-!
Verification of the Recurring-Charge Classification & Savings-Goal Projection
Engine of the smart-financial-coach repository, a shallow embedding of
`frontend/src/components/SavingsGoalCard.jsx`.

JavaScript numbers are modelled exactly: a finite value is an exact rational,
and the special values `NaN`, `+Infinity` and `-Infinity` are explicit
constructors, so coercions such as `Number(x || 0)` and the NaN-rejecting
comparison semantics of JavaScript are reproduced faithfully.
-/

set_option maxHeartbeats 1000000

/-- Model of a JavaScript number: an exact finite rational, NaN, or a signed
infinity (`inf true` is positive infinity). -/
inductive JSNum where
  | fin (q : ℚ)
  | nan
  | inf (pos : Bool)
deriving DecidableEq, Repr

/-- Models the JavaScript expression `x || 0` applied to a number: the falsy
numbers (`0`, `-0`, `NaN`) are replaced by `0`; in this model only `NaN`
changes (a finite `0` is already `fin 0`). -/
def orZero : JSNum → JSNum
  | .nan => .fin 0
  | v => v

/-- Models `Number.isFinite`. -/
def jsFiniteB : JSNum → Bool
  | .fin _ => true
  | _ => false

/-- Models the JavaScript comparison `x < y` (false whenever an operand is NaN). -/
def jltB : JSNum → JSNum → Bool
  | .nan, _ => false
  | _, .nan => false
  | .fin a, .fin b => decide (a < b)
  | .inf a, .inf b => !a && b
  | .inf a, .fin _ => !a
  | .fin _, .inf b => b

/-- Models the JavaScript comparison `x <= y` (false whenever an operand is NaN). -/
def jleB : JSNum → JSNum → Bool
  | .nan, _ => false
  | _, .nan => false
  | .fin a, .fin b => decide (a ≤ b)
  | .inf a, .inf b => a == b || (!a && b)
  | .inf a, .fin _ => !a
  | .fin _, .inf b => b

/-- Models JavaScript addition `x + y` on numbers. -/
def jadd : JSNum → JSNum → JSNum
  | .nan, _ => .nan
  | _, .nan => .nan
  | .fin a, .fin b => .fin (a + b)
  | .inf a, .fin _ => .inf a
  | .fin _, .inf b => .inf b
  | .inf a, .inf b => if a == b then .inf a else .nan

/-- Models JavaScript subtraction `x - y` on numbers. -/
def jsub : JSNum → JSNum → JSNum
  | .nan, _ => .nan
  | _, .nan => .nan
  | .fin a, .fin b => .fin (a - b)
  | .inf a, .fin _ => .inf a
  | .fin _, .inf b => .inf (!b)
  | .inf a, .inf b => if a == b then .nan else .inf a

/-- Whether a JavaScript number compares `> 0` (false for NaN). -/
def jsPos : JSNum → Bool
  | .fin q => decide (0 < q)
  | .nan => false
  | .inf b => b

/-- Models the JavaScript expression `x / 12`. -/
def div12 : JSNum → JSNum
  | .fin q => .fin (q / 12)
  | .nan => .nan
  | .inf b => .inf b

/-- Models the JavaScript expression `x / r` for a finite rational divisor; in
the source the divisor is always strictly positive at the point of use. -/
def jdivQ (x : JSNum) (r : ℚ) : JSNum :=
  match x with
  | .fin a => .fin (a / r)
  | .nan => .nan
  | .inf b => if 0 < r then .inf b else .inf (!b)

/-- Models the JavaScript expression `x * 100`. -/
def jmul100 : JSNum → JSNum
  | .fin a => .fin (a * 100)
  | .nan => .nan
  | .inf b => .inf b

/-- Models `Math.min` on two numbers (NaN-propagating). -/
def jminN : JSNum → JSNum → JSNum
  | .nan, _ => .nan
  | _, .nan => .nan
  | .fin a, .fin b => .fin (min a b)
  | .inf a, .inf b => .inf (a && b)
  | .inf a, y => if a then y else .inf false
  | x, .inf b => if b then x else .inf false

/-- Models `Math.max` on two numbers (NaN-propagating). -/
def jmaxN : JSNum → JSNum → JSNum
  | .nan, _ => .nan
  | _, .nan => .nan
  | .fin a, .fin b => .fin (max a b)
  | .inf a, .inf b => .inf (a || b)
  | .inf a, y => if a then .inf true else y
  | x, .inf b => if b then .inf true else x

/-- Models `Math.round` (round half toward positive infinity). -/
def jroundN : JSNum → JSNum
  | .fin q => .fin ((⌊q + 1 / 2⌋ : ℤ) : ℚ)
  | .nan => .nan
  | .inf b => .inf b

/-- Whitespace characters recognised by the model of `trim` and the regular
expression `\s` (space, tab, newline, carriage return; the merchant strings of
this engine use only these). -/
def isWS (c : Char) : Bool := c == ' ' || c == '\t' || c == '\n' || c == '\r'

/-- Models `String.prototype.toLowerCase` character by character. -/
def lowerChar (c : Char) : Char := c.toLower

/-- Models `s.toLowerCase()`. -/
def lowerStr (s : String) : String := ⟨s.data.map lowerChar⟩

/-- Models `s.trim()` on the character list of a string. -/
def trimL (l : List Char) : List Char :=
  ((l.dropWhile isWS).reverse.dropWhile isWS).reverse

/-- Models `s.trim()`. -/
def trimStr (s : String) : String := ⟨trimL s.data⟩

/-- Models `.replace(/\s+/g, " ")`: every run of whitespace collapses to one
space. The flag records whether the previous character was whitespace. -/
def collapseWSAux : Bool → List Char → List Char
  | _, [] => []
  | prevWS, c :: rest =>
    if isWS c then
      if prevWS then collapseWSAux true rest
      else ' ' :: collapseWSAux true rest
    else c :: collapseWSAux false rest

/-- Embedding of `normalizeMerchant` from SavingsGoalCard.jsx:
`String(s || "").trim().toLowerCase().replace(/\s+/g, " ")`. -/
def normalizeMerchant (s : String) : String :=
  ⟨collapseWSAux false ((trimL s.data).map lowerChar)⟩

/-- Whether the second list is an initial segment of the first. -/
def startsWithL : List Char → List Char → Bool
  | _, [] => true
  | [], _ :: _ => false
  | a :: as, b :: bs => a == b && startsWithL as bs

/-- Whether `sub` occurs contiguously inside the second list. -/
def containsL (sub : List Char) : List Char → Bool
  | [] => sub.isEmpty
  | c :: rest => startsWithL (c :: rest) sub || containsL sub rest

/-- Models `s.includes(sub)` on JavaScript strings. -/
def strIncludes (s sub : String) : Bool := containsL sub.data s.data

/-- Embedding of the `SUBS_ALLOW_PATTERNS` literal from SavingsGoalCard.jsx. -/
def SUBS_ALLOW_PATTERNS : List String :=
  ["netflix", "spotify", "hulu", "disney", "prime", "amazon prime", "apple",
   "icloud", "google", "youtube", "microsoft", "office", "adobe", "dropbox",
   "github", "notion", "slack", "zoom", "openai", "chatgpt", "gym",
   "planet fitness", "peloton"]

/-- Embedding of the `SUBS_BLOCK_PATTERNS` literal from SavingsGoalCard.jsx. -/
def SUBS_BLOCK_PATTERNS : List String :=
  ["rent", "mortgage", "property", "hoa", "loan", "tuition", "student",
   "insurance", "tax", "fee", "interest", "payment", "transfer", "zelle",
   "venmo", "paypal", "cash app", "atm", "air", "airlines", "flight",
   "hotel", "uber", "lyft"]

/-- Embedding of a recurring-charge input record. The numeric fields are
JavaScript numbers; `merchant` and `cadence` arrive as strings (the source
coerces them with `String(x || "")`, which is the identity on strings once a
missing field is read as the empty string). -/
structure RecurRow where
  merchant : String
  cadence : String
  avg_amount : JSNum
  annualized_cost : JSNum
  confidence : JSNum
deriving DecidableEq, Repr

/-- Embedding of `looksLikeRealSubscription` from SavingsGoalCard.jsx,
check for check in source order. -/
def looksLikeRealSubscription (row : RecurRow) : Bool :=
  let m := normalizeMerchant row.merchant
  if m = "" then false
  else
    let cadence := lowerStr row.cadence
    if cadence ≠ "monthly" ∧ cadence ≠ "annual" then false
    else if SUBS_BLOCK_PATTERNS.any (fun bad => strIncludes m bad) then false
    else
      let avg := orZero row.avg_amount
      if !jsFiniteB avg || jleB avg (.fin 0) then false
      else
        let monthly := div12 (orZero row.annualized_cost)
        let monthlyAmount := if jsFiniteB monthly && jltB (.fin 0) monthly then monthly else avg
        if jltB monthlyAmount (.fin 2) then false
        else if jltB (.fin 120) monthlyAmount then false
        else
          let conf := orZero row.confidence
          if !jsFiniteB conf || jltB conf (.fin (45 / 100)) then false
          else true

/-- Embedding of `isPreferredSubscription` from SavingsGoalCard.jsx. -/
def isPreferredSubscription (row : RecurRow) : Bool :=
  let m := normalizeMerchant row.merchant
  if m = "" then false
  else SUBS_ALLOW_PATTERNS.any (fun p => strIncludes m p)

/-- Milliseconds per day, the divisor `1000 * 60 * 60 * 24` of `monthsBetween`. -/
def msPerDay : ℚ := 1000 * 60 * 60 * 24

/-- Embedding of `monthsBetween` from SavingsGoalCard.jsx. A date is modelled
as `Option ℚ`: `some t` is a valid `Date` whose `getTime()` is `t`
milliseconds, `none` is an invalid date (`getTime()` is NaN) or a value that
is not a `Date` at all; both invalid cases return 1 in the source. -/
def monthsBetween (now target : Option ℚ) : ℤ :=
  match now, target with
  | some n, some t =>
    let days : ℚ := (t - n) / msPerDay
    if days ≤ 0 then 1
    else max 1 ⌈days / (3044 / 100 : ℚ)⌉
  | _, _ => 1

/-- Stable insertion with respect to a boolean "may go before" relation:
`x` is placed before the first element `y` with `le x y`. -/
def insertBy {α : Type} (le : α → α → Bool) (x : α) : List α → List α
  | [] => [x]
  | y :: ys => if le x y then x :: y :: ys else y :: insertBy le x ys

/-- Stable insertion sort with respect to a boolean relation. JavaScript's
`Array.prototype.sort` is required to be stable, and for a consistent
comparator every stable sort produces the same output, which this insertion
sort computes. -/
def insertionSortBy {α : Type} (le : α → α → Bool) : List α → List α
  | [] => []
  | x :: xs => insertBy le x (insertionSortBy le xs)

/-- Embedding of the comparator
`(a, b) => Number(b.annualized_cost || 0) - Number(a.annualized_cost || 0)`
of SavingsGoalCard.jsx as a "may go before" relation: the sort keeps `a`
before `b` exactly when the comparator value is not positive (a NaN
comparator value counts as zero per the ECMAScript `SortCompare`). -/
def leAC (a b : RecurRow) : Bool :=
  !jsPos (jsub (orZero b.annualized_cost) (orZero a.annualized_cost))

/-- Embedding of the candidate pipeline of `computed` in SavingsGoalCard.jsx:
filter, partition into preferred and fallback, sort each partition by the
`annualized_cost` comparator, concatenate, take the first two. -/
def topTwoF (subs : List RecurRow) : List RecurRow :=
  let candidates := subs.filter looksLikeRealSubscription
  let preferred := candidates.filter isPreferredSubscription
  let fallback := candidates.filter (fun r => !isPreferredSubscription r)
  ((insertionSortBy leAC preferred) ++ (insertionSortBy leAC fallback)).take 2

/-- Embedding of `topTwo.reduce((sum, r) => sum + Number(r.annualized_cost || 0), 0)`. -/
def sumAC (l : List RecurRow) : JSNum :=
  l.foldl (fun s r => jadd s (orZero r.annualized_cost)) (.fin 0)

/-- Embedding of `cancelMonthly` in SavingsGoalCard.jsx. -/
def cancelMonthlyF (subs : List RecurRow) : JSNum := div12 (sumAC (topTwoF subs))

/-- The CancellationPlan of the spec: the chosen candidates and their total
monthly value. -/
structure CancellationPlan where
  candidates : List RecurRow
  monthlyValue : JSNum
deriving DecidableEq, Repr

/-- The cancellation plan computed by the source pipeline. -/
def cancellationPlan (subs : List RecurRow) : CancellationPlan :=
  ⟨topTwoF subs, cancelMonthlyF subs⟩

/-- Embedding of `rawPct` in SavingsGoalCard.jsx:
`requiredMonthly > 0 ? (cancelMonthly / requiredMonthly) * 100 : 0`. The
required monthly amount is a finite rational because it is a validated goal
amount divided by an integer month count. -/
def coverageRaw (cancelMonthly : JSNum) (requiredMonthly : ℚ) : JSNum :=
  if 0 < requiredMonthly then jmul100 (jdivQ cancelMonthly requiredMonthly) else .fin 0

/-- Embedding of `coveragePct = Math.max(0, Math.min(999, rawPct))`. -/
def coveragePctF (cancelMonthly : JSNum) (requiredMonthly : ℚ) : JSNum :=
  jmaxN (.fin 0) (jminN (.fin 999) (coverageRaw cancelMonthly requiredMonthly))

/-- Embedding of `coveragePctDisplay = Math.min(250, Math.round(coveragePct))`. -/
def coverageDisplayF (cancelMonthly : JSNum) (requiredMonthly : ℚ) : JSNum :=
  jminN (.fin 250) (jroundN (coveragePctF cancelMonthly requiredMonthly))

/-- A validated savings goal as held in component state: `loadGoal` and
`onSave` only ever produce a finite positive amount and a trimmed non-empty
date string. -/
structure Goal where
  targetAmount : ℚ
  targetDate : String
deriving DecidableEq, Repr

/-- The record returned by the `computed` memo in SavingsGoalCard.jsx. -/
structure Projection where
  monthsRemaining : ℤ
  requiredMonthly : ℚ
  topTwo : List RecurRow
  cancelMonthly : JSNum
  coveragePct : JSNum
  coveragePctDisplay : JSNum
  totalCandidates : ℕ
deriving DecidableEq, Repr

/-- Embedding of the `computed` memo of SavingsGoalCard.jsx for a present
goal. The two host inputs that are not part of `(goal, subs)` are explicit:
`parseDate` models the `new Date(string)` constructor (applied to
`goal.targetDate + "T00:00:00"`) and `now` models `new Date()`. -/
def computedF (parseDate : String → Option ℚ) (now : Option ℚ)
    (goal : Goal) (subs : List RecurRow) : Projection :=
  let target := parseDate (goal.targetDate ++ "T00:00:00")
  let monthsRemaining := monthsBetween now target
  let requiredMonthly := goal.targetAmount / (monthsRemaining : ℚ)
  { monthsRemaining := monthsRemaining
    requiredMonthly := requiredMonthly
    topTwo := topTwoF subs
    cancelMonthly := cancelMonthlyF subs
    coveragePct := coveragePctF (cancelMonthlyF subs) requiredMonthly
    coveragePctDisplay := coverageDisplayF (cancelMonthlyF subs) requiredMonthly
    totalCandidates := (subs.filter looksLikeRealSubscription).length }

/-- The value persisted under the goal storage key, as seen by `loadGoal`:
`absent` models a missing key, `malformed` models a raw string that
`JSON.parse` rejects or parses to a falsy value, and `record amt date` models
a parsed object whose `targetAmount` coerces to the number `amt` and whose
`targetDate` coerces to the string `date` (a missing field coerces to NaN
respectively the empty string). -/
inductive StoredVal where
  | absent
  | malformed
  | record (targetAmount : JSNum) (targetDate : String)
deriving DecidableEq, Repr

/-- Embedding of `loadGoal` from SavingsGoalCard.jsx. -/
def loadGoal : StoredVal → Option Goal
  | .absent => none
  | .malformed => none
  | .record amt date =>
    let d := trimStr date
    match amt with
    | .fin q => if q ≤ 0 then none else if d = "" then none else some ⟨q, d⟩
    | _ => none

/-- Embedding of `onSave` from SavingsGoalCard.jsx, after the host coercion
`Number(amountInput)` has produced the number `amt`: it validates, and either
reports an error string and leaves the persisted state unchanged, or persists
the new goal wholesale (`saveGoal`). Returns the persisted state after the
call together with the reported error, if any. -/
def onSave (amt : JSNum) (dateInput : String) (st : StoredVal) : StoredVal × Option String :=
  let date := trimStr dateInput
  match amt with
  | .fin q =>
    if q ≤ 0 then (st, some "Enter a valid target amount.")
    else if date = "" then (st, some "Select a target date.")
    else (.record (.fin q) date, none)
  | _ => (st, some "Enter a valid target amount.")

/-- The monthly equivalent as the claim words it: `annualizedCost / 12` when
that value is finite and strictly positive, otherwise `avgAmount`. -/
def specMonthlyEquivalent (row : RecurRow) : JSNum :=
  let m := div12 row.annualized_cost
  if jsFiniteB m && jsPos m then m else row.avg_amount

/-- The claimed characterisation of `looksLikeRealSubscription`: the
conjunction of the six acceptance conditions, stated on the raw record. -/
def specRealSubscription (row : RecurRow) : Prop :=
  normalizeMerchant row.merchant ≠ ""
  ∧ (lowerStr row.cadence = "monthly" ∨ lowerStr row.cadence = "annual")
  ∧ (∀ bad ∈ SUBS_BLOCK_PATTERNS, strIncludes (normalizeMerchant row.merchant) bad = false)
  ∧ (∃ a : ℚ, row.avg_amount = .fin a ∧ 0 < a)
  ∧ (∃ me : ℚ, specMonthlyEquivalent row = .fin me ∧ 2 ≤ me ∧ me ≤ 120)
  ∧ (∃ c : ℚ, row.confidence = .fin c ∧ 45 / 100 ≤ c)

/-- Natural "greater or equal" on JavaScript numbers (false on NaN), used to
state the descending order of the spec. -/
def jsGeB (x y : JSNum) : Bool := jleB y x

/-- Descending comparison by `annualizedCost` as the spec words it
("descending by annualizedCost", with missing or NaN costs coerced to 0 by
the source's `Number(x || 0)` read). -/
def geAC (a b : RecurRow) : Bool :=
  jsGeB (orZero a.annualized_cost) (orZero b.annualized_cost)

/-- The Recommender output as the spec words it: filter to real
subscriptions, partition into preferred and fallback, stable-sort each
partition descending by annualised cost, concatenate preferred first, and
take the first two entries. -/
def specCandidates (subs : List RecurRow) : List RecurRow :=
  let eligible := subs.filter looksLikeRealSubscription
  let preferred := eligible.filter isPreferredSubscription
  let fallback := eligible.filter (fun r => !isPreferredSubscription r)
  ((insertionSortBy geAC preferred) ++ (insertionSortBy geAC fallback)).take 2

/-- Modelled from the spec: the GoalStore `load()` contract of section 4.1 —
return nothing when the persisted value is absent, malformed, or fails
validation (amount not a finite positive number, or date empty after
trimming); otherwise return the goal with the amount coerced to a number and
the date trimmed. -/
def specLoad : StoredVal → Option Goal
  | .record (.fin q) d => if 0 < q ∧ trimStr d ≠ "" then some ⟨q, trimStr d⟩ else none
  | _ => none

/-- Round half up, the behaviour of `Math.round` on finite values. -/
def roundQ (q : ℚ) : ℤ := ⌊q + 1 / 2⌋

/-- Clamp a rational into `[lo, hi]`. -/
def clampQ (lo hi x : ℚ) : ℚ := max lo (min hi x)

/-- The `monthlyAmount` local of `looksLikeRealSubscription`, lifted to a
definition for reasoning. -/
def monthlyAmountF (row : RecurRow) : JSNum :=
  if jsFiniteB (div12 (orZero row.annualized_cost)) &&
      jltB (.fin 0) (div12 (orZero row.annualized_cost))
    then div12 (orZero row.annualized_cost) else orZero row.avg_amount

lemma looksLike_decompose (row : RecurRow) :
    looksLikeRealSubscription row =
      (!decide (normalizeMerchant row.merchant = "") &&
       !decide (lowerStr row.cadence ≠ "monthly" ∧ lowerStr row.cadence ≠ "annual") &&
       !(SUBS_BLOCK_PATTERNS.any fun bad => strIncludes (normalizeMerchant row.merchant) bad) &&
       !(!jsFiniteB (orZero row.avg_amount) || jleB (orZero row.avg_amount) (.fin 0)) &&
       !(jltB (monthlyAmountF row) (.fin 2)) &&
       !(jltB (.fin 120) (monthlyAmountF row)) &&
       !(!jsFiniteB (orZero row.confidence) ||
          jltB (orZero row.confidence) (.fin (45 / 100)))) := by
  unfold looksLikeRealSubscription monthlyAmountF
  dsimp only
  split_ifs with h1 h2 h3 h4 h5 h6 h7 h8 h9 h10 h11 h12 <;> simp_all <;>
    first
      | tauto
      | (intros; simp_all)

lemma any_block_eq_false (m : String) :
    (SUBS_BLOCK_PATTERNS.any (fun bad => strIncludes m bad) = false) ↔
      ∀ bad ∈ SUBS_BLOCK_PATTERNS, strIncludes m bad = false := by
  rw [← Bool.not_eq_true, List.any_eq_true]
  push_neg
  simp

lemma avgOk_iff (v : JSNum) :
    ((!jsFiniteB (orZero v) || jleB (orZero v) (.fin 0)) = false) ↔
      ∃ a : ℚ, v = .fin a ∧ 0 < a := by
  rcases v with a | _ | b <;> simp [orZero, jsFiniteB, jleB, not_le]

lemma confOk_iff (v : JSNum) :
    ((!jsFiniteB (orZero v) || jltB (orZero v) (.fin (45 / 100))) = false) ↔
      ∃ c : ℚ, v = .fin c ∧ 45 / 100 ≤ c := by
  rcases v with c | _ | b <;>
    simp [orZero, jsFiniteB, jltB, not_lt, show (0 : ℚ) < 45 / 100 by norm_num]

lemma monthlyAmountF_eq_spec (row : RecurRow) (a : ℚ) (hA : row.avg_amount = .fin a) :
    monthlyAmountF row = specMonthlyEquivalent row := by
  unfold monthlyAmountF specMonthlyEquivalent
  rcases row.annualized_cost with q | _ | c <;>
    simp [orZero, div12, jsFiniteB, jltB, jsPos, hA]

lemma monthlyAmountF_fin (row : RecurRow) (a : ℚ) (hA : row.avg_amount = .fin a) :
    ∃ me : ℚ, monthlyAmountF row = .fin me := by
  unfold monthlyAmountF
  rcases row.annualized_cost with q | _ | c
  · by_cases hq : (0 : ℚ) < q / 12
    · exact ⟨q / 12, by simp [orZero, div12, jsFiniteB, jltB, hq]⟩
    · exact ⟨a, by simp [orZero, div12, jsFiniteB, jltB, hq, hA]⟩
  · exact ⟨a, by simp [orZero, div12, jsFiniteB, jltB, hA]⟩
  · exact ⟨a, by simp [orZero, div12, jsFiniteB, jltB, hA]⟩

/-- C1. `looksLikeRealSubscription` accepts a record exactly when all six
conditions of the claim hold: non-empty normalised merchant, monthly or
annual cadence (case-insensitively), no block-list substring in the
normalised merchant name, finite positive average amount, monthly equivalent
within [2, 120], and finite confidence at least 0.45. -/
theorem claim_C1 (row : RecurRow) :
    looksLikeRealSubscription row = true ↔ specRealSubscription row := by
  rw [looksLike_decompose]
  simp only [Bool.and_eq_true, Bool.not_eq_true', decide_eq_false_iff_not,
    avgOk_iff, confOk_iff, any_block_eq_false]
  unfold specRealSubscription
  constructor
  · rintro ⟨⟨⟨⟨⟨⟨h1, h2⟩, h3⟩, ⟨a, hA, ha⟩⟩, h5⟩, h6⟩, h7⟩
    obtain ⟨me, hme⟩ := monthlyAmountF_fin row a hA
    refine ⟨h1, by tauto, h3, ⟨a, hA, ha⟩, ⟨me, ?_, ?_, ?_⟩, h7⟩
    · rw [← monthlyAmountF_eq_spec row a hA]; exact hme
    · rw [hme] at h5; simpa [jltB, not_lt] using h5
    · rw [hme] at h6; simpa [jltB, not_lt] using h6
  · rintro ⟨h1, h2, h3, ⟨a, hA, ha⟩, ⟨me, hme, hme2, hme120⟩, h7⟩
    rw [← monthlyAmountF_eq_spec row a hA] at hme
    refine ⟨⟨⟨⟨⟨⟨h1, by tauto⟩, h3⟩, ⟨a, hA, ha⟩⟩, ?_⟩, ?_⟩, h7⟩
    · rw [hme]; simpa [jltB, not_lt] using hme2
    · rw [hme]; simpa [jltB, not_lt] using hme120

/-- C9. The block list contains the bare three-letter entry "air", and any
record whose normalised merchant name contains "air" anywhere is rejected by
`looksLikeRealSubscription`, regardless of cadence, amounts or confidence. -/
theorem claim_C9 :
    ("air" ∈ SUBS_BLOCK_PATTERNS) ∧
    ∀ row : RecurRow, strIncludes (normalizeMerchant row.merchant) "air" = true →
      looksLikeRealSubscription row = false := by
  refine ⟨by decide, fun row h => ?_⟩
  have hany : (SUBS_BLOCK_PATTERNS.any
      fun bad => strIncludes (normalizeMerchant row.merchant) bad) = true :=
    List.any_eq_true.mpr ⟨"air", by decide, h⟩
  simp [looksLike_decompose, hany]

/-- Witness for C9: "Hair Studio" has nothing to do with airlines, yet its
normalised name contains "air" and the record is rejected even with monthly
cadence, a valid amount and full confidence. -/
theorem claim_C9_witness :
    strIncludes (normalizeMerchant "Hair Studio") "air" = true ∧
    looksLikeRealSubscription ⟨"Hair Studio", "monthly", .fin 20, .fin 240, .fin 1⟩ = false :=
  ⟨by decide, claim_C9.2 ⟨"Hair Studio", "monthly", .fin 20, .fin 240, .fin 1⟩ (by decide)⟩

lemma monthsBetween_ge_one (now target : Option ℚ) : 1 ≤ monthsBetween now target := by
  unfold monthsBetween
  rcases now with _ | n
  · simp
  · rcases target with _ | t
    · simp
    · dsimp only
      split_ifs
      · exact le_refl 1
      · exact le_max_left 1 _

/-- C4. `monthsBetween` always returns an integer at least 1; when both dates
are valid and the target is strictly after now it returns the day difference
divided by 30.44, rounded up, floored at 1; in every other case (either date
invalid, or a zero or negative day difference) it returns exactly 1. -/
theorem claim_C4 (now target : Option ℚ) :
    1 ≤ monthsBetween now target ∧
    (∀ n t : ℚ, now = some n → target = some t → n < t →
      monthsBetween now target = max 1 ⌈((t - n) / msPerDay) / (3044 / 100 : ℚ)⌉) ∧
    ((now = none ∨ target = none ∨ ∃ n t : ℚ, now = some n ∧ target = some t ∧ t ≤ n) →
      monthsBetween now target = 1) := by
  refine ⟨monthsBetween_ge_one now target, ?_, ?_⟩
  · rintro n t rfl rfl hlt
    unfold monthsBetween
    dsimp only
    rw [if_neg]
    rw [not_le]
    have hms : (0 : ℚ) < msPerDay := by norm_num [msPerDay]
    exact div_pos (by linarith) hms
  · rintro (rfl | hrest)
    · rfl
    · rcases hrest with rfl | ⟨n, t, rfl, rfl, hle⟩
      · unfold monthsBetween
        rcases now with _ | n <;> rfl
      · unfold monthsBetween
        dsimp only
        rw [if_pos]
        have hms : (0 : ℚ) < msPerDay := by norm_num [msPerDay]
        exact div_nonpos_of_nonpos_of_nonneg (by linarith) (le_of_lt hms)

/-- Witness for C4 at concrete inputs: 100 days ahead gives
`max 1 ⌈100 / 30.44⌉` months, and an invalid target date gives exactly 1. -/
theorem claim_C4_witness :
    1 ≤ monthsBetween (some 0) (some 8640000000) ∧
    monthsBetween (some 0) (some 8640000000) =
      max 1 ⌈((8640000000 - 0 : ℚ) / msPerDay) / (3044 / 100 : ℚ)⌉ ∧
    monthsBetween (some 0) none = 1 :=
  ⟨(claim_C4 (some 0) (some 8640000000)).1,
   (claim_C4 (some 0) (some 8640000000)).2.1 0 8640000000 rfl rfl (by norm_num),
   (claim_C4 (some 0) none).2.2 (Or.inr (Or.inl rfl))⟩

lemma coveragePctF_fin (mv rm : ℚ) :
    coveragePctF (.fin mv) rm =
      .fin (if 0 < rm then max 0 (min 999 (mv / rm * 100)) else 0) := by
  unfold coveragePctF coverageRaw
  split_ifs with h
  · simp [jdivQ, jmul100, jminN, jmaxN]
  · show jmaxN (.fin 0) (jminN (.fin 999) (.fin 0)) = _
    norm_num [jminN, jmaxN]

lemma coverageDisplayF_fin (mv rm : ℚ) (p : ℚ) (hp : coveragePctF (.fin mv) rm = .fin p) :
    coverageDisplayF (.fin mv) rm = .fin (min 250 ((⌊p + 1 / 2⌋ : ℤ) : ℚ)) := by
  unfold coverageDisplayF
  rw [hp]
  simp [jroundN, jminN]

/-- C3. For arbitrary non-negative monthly value and required monthly amount,
`coveragePct` is a finite number in [0, 999] and `coveragePctDisplay` is a
finite number in [0, 250]; a required monthly amount of 0 yields coverage 0
rather than a division error, and the display value equals the coverage
percentage clamped to [0, 250] and rounded half-up. -/
theorem claim_C3 (mv rm : ℚ) (hmv : 0 ≤ mv) (hrm : 0 ≤ rm) :
    (∃ p : ℚ, coveragePctF (.fin mv) rm = .fin p ∧ 0 ≤ p ∧ p ≤ 999) ∧
    (∃ d : ℚ, coverageDisplayF (.fin mv) rm = .fin d ∧ 0 ≤ d ∧ d ≤ 250) ∧
    (rm = 0 → coveragePctF (.fin mv) rm = .fin 0) ∧
    (∀ p : ℚ, coveragePctF (.fin mv) rm = .fin p →
      coverageDisplayF (.fin mv) rm = .fin ((roundQ (clampQ 0 250 p) : ℤ) : ℚ)) := by
  set P : ℚ := if 0 < rm then max 0 (min 999 (mv / rm * 100)) else 0 with hP
  have hpct := coveragePctF_fin mv rm
  have hP0 : 0 ≤ P := by
    rw [hP]; split_ifs
    · exact le_max_left 0 _
    · exact le_refl 0
  have hP999 : P ≤ 999 := by
    rw [hP]; split_ifs
    · exact max_le (by norm_num) (min_le_left _ _)
    · norm_num
  have hdisp := coverageDisplayF_fin mv rm P (by rw [hpct])
  have hfl0 : (0 : ℤ) ≤ ⌊P + 1 / 2⌋ := Int.le_floor.mpr (by push_cast; linarith)
  refine ⟨⟨P, by rw [hpct], hP0, hP999⟩,
    ⟨min 250 ((⌊P + 1 / 2⌋ : ℤ) : ℚ), hdisp, ?_, min_le_left _ _⟩, ?_, ?_⟩
  · exact le_min (by norm_num) (by exact_mod_cast hfl0)
  · intro h0
    rw [hpct]
    simp [h0]
  · intro p hp
    have hpP : coveragePctF (.fin mv) rm = JSNum.fin P := hpct
    have hpeq : p = P := JSNum.fin.inj (hp.symm.trans hpP)
    rw [hpeq, hdisp]
    unfold roundQ clampQ
    have hmax : max 0 (min 250 P) = min 250 P :=
      max_eq_right (le_min (by norm_num) hP0)
    rw [hmax]
    rcases le_or_lt P 250 with hle | hgt
    · rw [min_eq_right hle]
      have hfl : ⌊P + 1 / 2⌋ ≤ 250 := by
        have : ⌊P + 1 / 2⌋ ≤ ⌊(250 : ℚ) + 1 / 2⌋ := Int.floor_le_floor (by linarith)
        have h250 : ⌊(250 : ℚ) + 1 / 2⌋ = 250 := by
          rw [Int.floor_eq_iff]
          norm_num
        omega
      congr 1
      rw [min_eq_right]
      exact_mod_cast hfl
    · rw [min_eq_left (le_of_lt hgt)]
      have h250 : ⌊(250 : ℚ) + 1 / 2⌋ = 250 := by
        rw [Int.floor_eq_iff]
        norm_num
      have hfl : (250 : ℤ) ≤ ⌊P + 1 / 2⌋ := by
        have : ⌊(250 : ℚ) + 1 / 2⌋ ≤ ⌊P + 1 / 2⌋ := Int.floor_le_floor (by linarith)
        omega
      rw [h250]
      have hminl : (250 : ℚ) ⊓ ((⌊P + 1 / 2⌋ : ℤ) : ℚ) = 250 :=
        min_eq_left (by exact_mod_cast hfl)
      rw [hminl]
      norm_num

/-- Witness for C3 at the concrete inputs of end-to-end scenario 1:
monthly value 35 against a required 120 gives a coverage percentage of
about 29.17 and a display value of 29. -/
theorem claim_C3_witness :
    (0 : ℚ) ≤ 35 ∧ (0 : ℚ) ≤ 120 ∧
    (∃ p : ℚ, coveragePctF (.fin 35) 120 = .fin p ∧ 0 ≤ p ∧ p ≤ 999) ∧
    (∃ d : ℚ, coverageDisplayF (.fin 35) 120 = .fin d ∧ 0 ≤ d ∧ d ≤ 250) :=
  ⟨by norm_num, by norm_num,
   (claim_C3 35 120 (by norm_num) (by norm_num)).1,
   (claim_C3 35 120 (by norm_num) (by norm_num)).2.1⟩

/-- C8. For any goal with a positive target amount, `requiredMonthly` is
strictly positive (the month count is at least 1), so the coverage
computation always takes the division branch: the `0` branch of the guard
`requiredMonthly > 0` is unreachable when a goal exists. -/
theorem claim_C8 (parse : String → Option ℚ) (now : Option ℚ) (g : Goal)
    (subs : List RecurRow) (hpos : 0 < g.targetAmount) :
    0 < (computedF parse now g subs).requiredMonthly ∧
    coverageRaw (cancelMonthlyF subs) ((computedF parse now g subs).requiredMonthly) =
      jmul100 (jdivQ (cancelMonthlyF subs) ((computedF parse now g subs).requiredMonthly)) := by
  have hreq : (computedF parse now g subs).requiredMonthly =
      g.targetAmount / ((monthsBetween now (parse (g.targetDate ++ "T00:00:00")) : ℤ) : ℚ) := rfl
  have h1 : 1 ≤ monthsBetween now (parse (g.targetDate ++ "T00:00:00")) :=
    monthsBetween_ge_one _ _
  have hm : (0 : ℚ) < ((monthsBetween now (parse (g.targetDate ++ "T00:00:00")) : ℤ) : ℚ) := by
    exact_mod_cast lt_of_lt_of_le Int.one_pos h1
  have hpos' : 0 < (computedF parse now g subs).requiredMonthly := by
    rw [hreq]
    exact div_pos hpos hm
  refine ⟨hpos', ?_⟩
  unfold coverageRaw
  rw [if_pos hpos']

/-- Witness for C8 at a concrete goal of 100 with an unparsable date and an
empty record feed. -/
theorem claim_C8_witness :
    (0 : ℚ) < (100 : ℚ) ∧
    0 < (computedF (fun _ => none) none ⟨100, "2030-01-01"⟩ []).requiredMonthly :=
  ⟨by norm_num,
   (claim_C8 (fun _ => none) none ⟨100, "2030-01-01"⟩ [] (by norm_num)).1⟩

/-- Counterexample to C7 as stated: the same goal and the same (empty) record
feed, evaluated at two different wall-clock instants (100 days before the
target date versus the target instant itself), give different
`monthsRemaining` (4 versus 1): the evaluation depends on the current time,
not only on the `(Goal, records)` pair. -/
theorem claim_C7_counterexample :
    (computedF (fun _ => some 0) (some (-8640000000)) ⟨100, "2030-01-01"⟩ []).monthsRemaining ≠
      (computedF (fun _ => some 0) (some 0) ⟨100, "2030-01-01"⟩ []).monthsRemaining := by
  have h1 : (computedF (fun _ => some 0) (some (-8640000000))
      ⟨100, "2030-01-01"⟩ []).monthsRemaining = 4 := by
    show monthsBetween (some (-8640000000)) (some 0) = 4
    unfold monthsBetween
    dsimp only
    rw [if_neg (by norm_num [msPerDay])]
    have hceil : ⌈((0 : ℚ) - (-8640000000)) / msPerDay / (3044 / 100 : ℚ)⌉ = 4 := by
      rw [Int.ceil_eq_iff]
      norm_num [msPerDay]
    rw [hceil]
    exact max_eq_right (by norm_num)
  have h2 : (computedF (fun _ => some 0) (some 0)
      ⟨100, "2030-01-01"⟩ []).monthsRemaining = 1 := by
    show monthsBetween (some 0) (some 0) = 1
    unfold monthsBetween
    dsimp only
    rw [if_pos (by norm_num)]
  rw [h1, h2]
  decide

/-- C7 amended. The evaluation is deterministic in `(now, Goal, records)`
(plus the fixed host date parser): with the current time held fixed, equal
inputs give equal outputs; moreover the candidate list, the cancellation
monthly value, and the candidate count do not depend on the current time at
all. `monthsRemaining`, `requiredMonthly` and the coverage figures genuinely
depend on the evaluation instant, as the counterexample shows. -/
theorem claim_C7 (parse : String → Option ℚ) (now now' : Option ℚ)
    (g : Goal) (subs : List RecurRow) :
    (computedF parse now g subs).topTwo = (computedF parse now' g subs).topTwo ∧
    (computedF parse now g subs).cancelMonthly = (computedF parse now' g subs).cancelMonthly ∧
    (computedF parse now g subs).totalCandidates =
      (computedF parse now' g subs).totalCandidates ∧
    (now = now' → computedF parse now g subs = computedF parse now' g subs) :=
  ⟨rfl, rfl, rfl, fun h => by rw [h]⟩

/-- Witness for C7 (amended) at concrete inputs. -/
theorem claim_C7_witness :
    (computedF (fun _ => some 0) (some 0) ⟨100, "2030-01-01"⟩ []).topTwo =
      (computedF (fun _ => some 0) (some 0) ⟨100, "2030-01-01"⟩ []).topTwo ∧
    computedF (fun _ => some 0) (some 0) ⟨100, "2030-01-01"⟩ [] =
      computedF (fun _ => some 0) (some 0) ⟨100, "2030-01-01"⟩ [] :=
  ⟨(claim_C7 (fun _ => some 0) (some 0) (some 0) ⟨100, "2030-01-01"⟩ []).1,
   (claim_C7 (fun _ => some 0) (some 0) (some 0) ⟨100, "2030-01-01"⟩ []).2.2.2 rfl⟩

/-- The validation predicate of `save`: the amount is a finite number
strictly greater than 0 and the date is non-empty after trimming. -/
def validSaveInput (amt : JSNum) (dateInput : String) : Prop :=
  (∃ q : ℚ, amt = .fin q ∧ 0 < q) ∧ trimStr dateInput ≠ ""

/-- C6. `loadGoal` is total (it never raises) and equals the spec contract:
absent, malformed, or invalid persisted values load as `none`, and a valid
persisted value loads as the goal with the amount coerced to a number and
the date trimmed. -/
theorem claim_C6 (st : StoredVal) : loadGoal st = specLoad st := by
  rcases st with _ | _ | ⟨amt, d⟩
  · rfl
  · rfl
  · rcases amt with q | _ | b
    · unfold loadGoal specLoad
      dsimp only
      by_cases hq : q ≤ 0
      · have hn : ¬(0 < q ∧ trimStr d ≠ "") := fun h => absurd h.1 (not_lt.mpr hq)
        simp [hq, hn]
      · by_cases hd : trimStr d = ""
        · have hn : ¬(0 < q ∧ trimStr d ≠ "") := fun h => h.2 hd
          simp [hq, hd, hn]
        · have hy : 0 < q ∧ trimStr d ≠ "" := ⟨lt_of_not_le hq, hd⟩
          simp [hq, hd, hy]
    · rfl
    · rfl

/-- C5. An invalid save call (amount not a finite positive number, or date
empty after trimming) reports an error, leaves the persisted state
unchanged, and a subsequent load returns exactly what it returned before; a
valid save call reports no error and replaces the persisted value wholesale
with the new goal record. -/
theorem claim_C5 (amt : JSNum) (dateInput : String) (st : StoredVal) :
    (¬ validSaveInput amt dateInput →
      (onSave amt dateInput st).1 = st ∧
      (onSave amt dateInput st).2 ≠ none ∧
      loadGoal (onSave amt dateInput st).1 = loadGoal st) ∧
    (validSaveInput amt dateInput →
      (onSave amt dateInput st).2 = none ∧
      ∀ q : ℚ, amt = .fin q →
        (onSave amt dateInput st).1 = .record (.fin q) (trimStr dateInput)) := by
  unfold validSaveInput onSave
  rcases amt with q | _ | b
  · dsimp only
    by_cases hq : q ≤ 0
    · rw [if_pos hq]
      constructor
      · exact fun _ => ⟨rfl, by simp, rfl⟩
      · rintro ⟨⟨q', hq', hpos⟩, -⟩
        rw [← JSNum.fin.inj hq'] at hpos
        exact absurd hpos (not_lt.mpr hq)
    · rw [if_neg hq]
      by_cases hd : trimStr dateInput = ""
      · rw [if_pos hd]
        constructor
        · exact fun _ => ⟨rfl, by simp, rfl⟩
        · rintro ⟨-, hd'⟩
          exact absurd hd hd'
      · rw [if_neg hd]
        constructor
        · intro hinv
          exact absurd ⟨⟨q, rfl, lt_of_not_le hq⟩, hd⟩ hinv
        · intro _
          refine ⟨rfl, fun q' hq' => ?_⟩
          rw [JSNum.fin.inj hq']
  · exact ⟨fun _ => ⟨rfl, by simp, rfl⟩,
      fun h => absurd h (by rintro ⟨⟨q', hq', -⟩, -⟩; cases hq')⟩
  · exact ⟨fun _ => ⟨rfl, by simp, rfl⟩,
      fun h => absurd h (by rintro ⟨⟨q', hq', -⟩, -⟩; cases hq')⟩

/-- Witness for C5: end-to-end scenario 3 — `save(-5, "2030-01-01")` on a
store holding a prior goal fails validation, changes nothing, and a
subsequent load still returns the prior goal. -/
theorem claim_C5_witness :
    (onSave (.fin (-5)) "2030-01-01" (.record (.fin 500) "2031-05-05")).1 =
        .record (.fin 500) "2031-05-05" ∧
    (onSave (.fin (-5)) "2030-01-01" (.record (.fin 500) "2031-05-05")).2 ≠ none ∧
    loadGoal (onSave (.fin (-5)) "2030-01-01" (.record (.fin 500) "2031-05-05")).1 =
      loadGoal (.record (.fin 500) "2031-05-05") :=
  (claim_C5 (.fin (-5)) "2030-01-01" (.record (.fin 500) "2031-05-05")).1
    (by
      rintro ⟨⟨q, hq, hpos⟩, -⟩
      rw [← JSNum.fin.inj hq] at hpos
      norm_num at hpos)

lemma orZero_ne_nan (v : JSNum) : orZero v ≠ .nan := by
  rcases v <;> simp [orZero]

lemma jleB_refl (x : JSNum) (hx : x ≠ .nan) : jleB x x = true := by
  rcases x with q | _ | b
  · simp [jleB]
  · exact absurd rfl hx
  · simp [jleB]

lemma jleB_total (x y : JSNum) (hx : x ≠ .nan) (hy : y ≠ .nan) :
    jleB x y = true ∨ jleB y x = true := by
  rcases x with a | _ | s <;> rcases y with b | _ | t <;>
    (try cases s) <;> (try cases t) <;> simp_all [jleB]
  exact le_total a b

lemma jleB_trans (x y z : JSNum) (hx : x ≠ .nan) (hy : y ≠ .nan) (hz : z ≠ .nan)
    (hxy : jleB x y = true) (hyz : jleB y z = true) : jleB x z = true := by
  rcases x with a | _ | s <;> rcases y with b | _ | t <;> rcases z with c | _ | u <;>
    (try cases s) <;> (try cases t) <;> (try cases u) <;> simp_all [jleB] <;> linarith

lemma not_jsPos_jsub (x y : JSNum) (hx : x ≠ .nan) (hy : y ≠ .nan) :
    (!jsPos (jsub x y)) = jleB x y := by
  rcases x with a | _ | s
  · rcases y with b | _ | t
    · simp only [jsub, jsPos, jleB, sub_pos]
      by_cases h : b < a
      · simp [h, not_le.mpr h]
      · simp [h, le_of_not_lt h]
    · exact absurd rfl hy
    · cases t <;> simp [jsub, jsPos, jleB]
  · exact absurd rfl hx
  · rcases y with b | _ | t
    · cases s <;> simp [jsub, jsPos, jleB]
    · exact absurd rfl hy
    · cases s <;> cases t <;> simp [jsub, jsPos, jleB]

lemma leAC_eq_geAC (a b : RecurRow) : leAC a b = geAC a b := by
  unfold leAC geAC jsGeB
  exact not_jsPos_jsub _ _ (orZero_ne_nan _) (orZero_ne_nan _)

lemma geAC_total (a b : RecurRow) : geAC a b = true ∨ geAC b a = true := by
  unfold geAC jsGeB
  rcases jleB_total (orZero b.annualized_cost) (orZero a.annualized_cost)
    (orZero_ne_nan _) (orZero_ne_nan _) with h | h
  · exact Or.inl h
  · exact Or.inr h

lemma geAC_trans (a b c : RecurRow) (h1 : geAC a b = true) (h2 : geAC b c = true) :
    geAC a c = true := by
  unfold geAC jsGeB at h1 h2 ⊢
  exact jleB_trans _ _ _ (orZero_ne_nan _) (orZero_ne_nan _) (orZero_ne_nan _) h2 h1

lemma geAC_of_eq_key (a b : RecurRow)
    (h : orZero a.annualized_cost = orZero b.annualized_cost) : geAC a b = true := by
  unfold geAC jsGeB
  rw [h]
  exact jleB_refl _ (orZero_ne_nan _)

lemma insertBy_perm {α : Type} (le : α → α → Bool) (x : α) (l : List α) :
    (insertBy le x l).Perm (x :: l) := by
  induction l with
  | nil => exact List.Perm.refl _
  | cons y ys ih =>
    unfold insertBy
    split_ifs with h
    · exact List.Perm.refl _
    · exact (ih.cons y).trans (List.Perm.swap x y ys)

lemma insertionSortBy_perm {α : Type} (le : α → α → Bool) (l : List α) :
    (insertionSortBy le l).Perm l := by
  induction l with
  | nil => exact List.Perm.refl _
  | cons x xs ih => exact (insertBy_perm le x _).trans (ih.cons x)

lemma insertBy_pairwise {α : Type} (le : α → α → Bool)
    (htot : ∀ a b, le a b = true ∨ le b a = true)
    (htrans : ∀ a b c, le a b = true → le b c = true → le a c = true)
    (x : α) (l : List α) (hl : l.Pairwise (fun a b => le a b = true)) :
    (insertBy le x l).Pairwise (fun a b => le a b = true) := by
  induction l with
  | nil => simp [insertBy]
  | cons y ys ih =>
    rw [List.pairwise_cons] at hl
    obtain ⟨hy, hys⟩ := hl
    unfold insertBy
    split_ifs with h
    · rw [List.pairwise_cons]
      refine ⟨?_, List.pairwise_cons.mpr ⟨hy, hys⟩⟩
      intro z hz
      rcases List.mem_cons.mp hz with rfl | hz'
      · exact h
      · exact htrans x y z h (hy z hz')
    · rw [List.pairwise_cons]
      refine ⟨?_, ih hys⟩
      intro z hz
      have hz' := (insertBy_perm le x ys).mem_iff.mp hz
      rcases List.mem_cons.mp hz' with hzx | hz''
      · rw [hzx]
        rcases htot x y with hxy | hyx
        · exact absurd hxy h
        · exact hyx
      · exact hy z hz''

lemma insertionSortBy_pairwise {α : Type} (le : α → α → Bool)
    (htot : ∀ a b, le a b = true ∨ le b a = true)
    (htrans : ∀ a b c, le a b = true → le b c = true → le a c = true)
    (l : List α) :
    (insertionSortBy le l).Pairwise (fun a b => le a b = true) := by
  induction l with
  | nil => simp [insertionSortBy]
  | cons x xs ih => exact insertBy_pairwise le htot htrans x _ ih

lemma filter_insertBy {α β : Type} [DecidableEq β] (le : α → α → Bool) (key : α → β)
    (hkey : ∀ a b, key a = key b → le a b = true)
    (x : α) (l : List α) (k : β) :
    (insertBy le x l).filter (fun r => key r == k) =
      (if key x == k then x :: l.filter (fun r => key r == k)
       else l.filter (fun r => key r == k)) := by
  induction l with
  | nil => by_cases hx : (key x == k) = true <;> simp [insertBy, List.filter, hx]
  | cons y ys ih =>
    unfold insertBy
    by_cases h : le x y = true
    · rw [if_pos h, List.filter_cons]
    · rw [if_neg h]
      by_cases hx : (key x == k) = true
      · by_cases hyk : (key y == k) = true
        · exfalso
          apply h
          apply hkey x y
          rw [beq_iff_eq] at hx hyk
          rw [hx, hyk]
        · simp [List.filter_cons, hx, hyk, ih]
      · simp [List.filter_cons, hx, ih]

lemma filter_insertionSortBy {α β : Type} [DecidableEq β] (le : α → α → Bool) (key : α → β)
    (hkey : ∀ a b, key a = key b → le a b = true) (l : List α) (k : β) :
    (insertionSortBy le l).filter (fun r => key r == k) =
      l.filter (fun r => key r == k) := by
  induction l with
  | nil => rfl
  | cons x xs ih =>
    show (insertBy le x (insertionSortBy le xs)).filter _ = _
    rw [filter_insertBy le key hkey, ih, List.filter_cons]

lemma insertBy_congr {α : Type} (le le' : α → α → Bool) (h : ∀ a b, le a b = le' a b)
    (x : α) (l : List α) : insertBy le x l = insertBy le' x l := by
  induction l with
  | nil => rfl
  | cons y ys ih =>
    unfold insertBy
    rw [h x y]
    split_ifs <;> simp [ih]

lemma insertionSortBy_congr {α : Type} (le le' : α → α → Bool)
    (h : ∀ a b, le a b = le' a b) (l : List α) :
    insertionSortBy le l = insertionSortBy le' l := by
  induction l with
  | nil => rfl
  | cons x xs ih =>
    show insertBy le x (insertionSortBy le xs) = insertBy le' x (insertionSortBy le' xs)
    rw [ih, insertBy_congr le le' h]

/-- C2. The cancellation plan candidates equal the spec description (filter
to real subscriptions, partition into preferred and fallback, stable-sort
each partition descending by annualised cost, preferred first, take two);
the candidate list never exceeds two entries; the monthly value is the sum
of the candidates' annualised costs divided by 12; and the sort used is a
genuine stable descending sort: a permutation, pairwise descending, and
order-preserving on every equal-cost class. -/
theorem claim_C2 (subs : List RecurRow) :
    (cancellationPlan subs).candidates = specCandidates subs ∧
    (cancellationPlan subs).candidates.length ≤ 2 ∧
    (cancellationPlan subs).monthlyValue =
      div12 (sumAC (cancellationPlan subs).candidates) ∧
    (∀ l : List RecurRow, (insertionSortBy geAC l).Perm l) ∧
    (∀ l : List RecurRow, (insertionSortBy geAC l).Pairwise (fun a b => geAC a b = true)) ∧
    (∀ (l : List RecurRow) (k : JSNum),
      (insertionSortBy geAC l).filter (fun r => orZero r.annualized_cost == k) =
        l.filter (fun r => orZero r.annualized_cost == k)) := by
  refine ⟨?_, ?_, rfl, ?_, ?_, ?_⟩
  · show topTwoF subs = specCandidates subs
    unfold topTwoF specCandidates
    dsimp only
    rw [insertionSortBy_congr leAC geAC leAC_eq_geAC,
      insertionSortBy_congr leAC geAC leAC_eq_geAC]
  · show (topTwoF subs).length ≤ 2
    unfold topTwoF
    dsimp only
    exact List.length_take_le 2 _
  · exact fun l => insertionSortBy_perm geAC l
  · exact fun l => insertionSortBy_pairwise geAC geAC_total geAC_trans l
  · exact fun l k =>
      filter_insertionSortBy geAC (fun r => orZero r.annualized_cost) geAC_of_eq_key l k

/-- A record with a finite negative annualised cost that nevertheless passes
every classifier check: the monthly equivalent falls back to the average
amount because `annualized_cost / 12` is not positive. -/
def negCostRow : RecurRow := ⟨"netflix", "monthly", .fin 10, .fin (-120), .fin (9 / 10)⟩

/-- C10. `monthlyValue` is not guaranteed non-negative: the record
`negCostRow` (monthly cadence, confidence 0.9, average amount 10 in
[2, 120], annualised cost −120) is classified as a real subscription, is
selected as the sole candidate of the plan, yields the negative monthly
value −120 / 12 = −10, and the coverage percentage is then clamped up
to 0. -/
theorem claim_C10 :
    looksLikeRealSubscription negCostRow = true ∧
    (cancellationPlan [negCostRow]).candidates = [negCostRow] ∧
    (cancellationPlan [negCostRow]).monthlyValue = .fin (-10) ∧
    jltB (cancellationPlan [negCostRow]).monthlyValue (.fin 0) = true ∧
    coveragePctF (cancellationPlan [negCostRow]).monthlyValue 120 = .fin 0 := by
  have h1 : looksLikeRealSubscription negCostRow = true := by
    have hm : normalizeMerchant "netflix" = "netflix" := by decide
    have hc : lowerStr "monthly" = "monthly" := by decide
    have hb : SUBS_BLOCK_PATTERNS.any (fun bad => strIncludes "netflix" bad) = false := by
      decide
    have hne : ("netflix" : String) ≠ "" := by decide
    norm_num [negCostRow, looksLikeRealSubscription, hm, hc, hb, hne, orZero, div12,
      jsFiniteB, jltB, jleB]
  have hpref : isPreferredSubscription negCostRow = true := by decide
  have hcand : topTwoF [negCostRow] = [negCostRow] := by
    unfold topTwoF
    dsimp only
    rw [List.filter_cons, if_pos h1, List.filter_nil,
      List.filter_cons, if_pos hpref, List.filter_nil,
      List.filter_cons]
    rw [if_neg (by rw [hpref]; decide), List.filter_nil]
    rfl
  have hmv : cancelMonthlyF [negCostRow] = .fin (-10) := by
    unfold cancelMonthlyF
    rw [hcand]
    show div12 (jadd (.fin 0) (orZero (.fin (-120)))) = .fin (-10)
    norm_num [jadd, orZero, div12]
  refine ⟨h1, hcand, hmv, ?_, ?_⟩
  · show jltB (cancelMonthlyF [negCostRow]) (.fin 0) = true
    rw [hmv]
    norm_num [jltB]
  · show coveragePctF (cancelMonthlyF [negCostRow]) 120 = .fin 0
    rw [hmv, coveragePctF_fin]
    norm_num

/-- Witness for C1 at a concrete record: a padded, mixed-case Netflix row. -/
theorem claim_C1_witness :
    looksLikeRealSubscription ⟨" Netflix ", "Monthly", .fin 15, .fin 180, .fin (1 / 2)⟩ = true ↔
      specRealSubscription ⟨" Netflix ", "Monthly", .fin 15, .fin 180, .fin (1 / 2)⟩ :=
  claim_C1 ⟨" Netflix ", "Monthly", .fin 15, .fin 180, .fin (1 / 2)⟩

/-- Witness for C2 at a concrete feed of two records. -/
theorem claim_C2_witness :
    (cancellationPlan [⟨"Netflix", "monthly", .fin 15, .fin 180, .fin 1⟩,
        ⟨"Generic Streaming Co", "monthly", .fin 20, .fin 240, .fin 1⟩]).candidates =
      specCandidates [⟨"Netflix", "monthly", .fin 15, .fin 180, .fin 1⟩,
        ⟨"Generic Streaming Co", "monthly", .fin 20, .fin 240, .fin 1⟩] ∧
    (cancellationPlan [⟨"Netflix", "monthly", .fin 15, .fin 180, .fin 1⟩,
        ⟨"Generic Streaming Co", "monthly", .fin 20, .fin 240, .fin 1⟩]).candidates.length ≤ 2 :=
  ⟨(claim_C2 _).1, (claim_C2 _).2.1⟩

/-- Witness for C6 at a concrete persisted record with an untrimmed date. -/
theorem claim_C6_witness :
    loadGoal (.record (.fin 5) " 2030-01-01 ") = specLoad (.record (.fin 5) " 2030-01-01 ") :=
  claim_C6 (.record (.fin 5) " 2030-01-01 ")
